import Mathlib

/-!
Shallow embedding of `src/server/src/entity/spawn.rs` from the feather
repository: the deferred spawn queue (`Spawner`) and its draining system
(`SpawnerSystem::run`).

External data types (`Position`, `Vec3`, `ItemStack`, `Metadata`,
`EntityType`, the component types and the event channel) live outside the
given source file; they are modelled from the spec, faithfully to how the
source file uses them.  Finite floating-point coordinates are modelled by
rationals, since the code only copies them verbatim and never computes on
them.  The crossbeam `SegQueue` is modelled as a FIFO list (push appends at
the tail, pop removes the head), and the specs component storages as
association lists keyed by entity identity.  A Rust panic (`unwrap` on a
failed insertion, or the `unimplemented!()` branch) is modelled by a
`RunResult.panicked` outcome that records which panic fired and the state
of the world at the moment of the abort.
-/

/-- Modelled from the spec: a 3-D world coordinate with three finite
floating-point components (`feather_core::Position`); the components are
represented by rationals since the core only copies them verbatim. -/
structure Position where
  x : ℚ
  y : ℚ
  z : ℚ
deriving DecidableEq

/-- Modelled from the spec: a 3-D vector (`glm::Vec3`), represented like
`Position` by three rational components. -/
structure Vec3 where
  x : ℚ
  y : ℚ
  z : ℚ
deriving DecidableEq

/-- Modelled from the spec: the item kind enumeration of `feather_core`;
only `EnderPearl` is named by the spec, other kinds are represented
generically. -/
inductive Item where
  | EnderPearl : Item
  | other : Nat → Item
deriving DecidableEq

/-- Modelled from the spec: `feather_core::ItemStack`, an item kind
together with a stack quantity (`ItemStack::new(item, amount)`). -/
structure ItemStack where
  ty : Item
  amount : Nat
deriving DecidableEq

/-- Modelled from the spec: the closed tag identifying the category of
entity to create; an extensible set of which only the `Item` variant is
fully specified, so all remaining kinds are represented by a generic tag. -/
inductive EntityType where
  | Item : EntityType
  | other : Nat → EntityType
deriving DecidableEq

/-- Modelled from the spec: `metadata::Item`, the item-flavoured metadata
payload; the source file only touches its carried item stack, via
`default()` and `set_item`. -/
structure ItemMetadata where
  item : Option ItemStack
deriving DecidableEq

/-- `metadata::Item::default()`: no carried item stack. -/
def ItemMetadata.default : ItemMetadata := { item := none }

/-- `metadata::Item::set_item`. -/
def ItemMetadata.set_item (m : ItemMetadata) (i : Option ItemStack) : ItemMetadata :=
  { m with item := i }

/-- Modelled from the spec: the kind-tagged polymorphic `Metadata` payload;
only the `Item` variant is specified, the remaining kind-tagged variants
are represented generically. -/
inductive Metadata where
  | Item : ItemMetadata → Metadata
  | other : Nat → Metadata
deriving DecidableEq

/-- The kind tag carried inside a `Metadata` payload. -/
def Metadata.kind : Metadata → EntityType
  | .Item _ => .Item
  | .other t => .other t

/-- `Extra`, from the source: kind-specific data attached after creation;
the source defines exactly one variant, `Item(ItemStack)`. -/
inductive Extra where
  | Item : ItemStack → Extra
deriving DecidableEq

/-- The kind tag carried inside an `Extra` payload. -/
def Extra.kind : Extra → EntityType
  | .Item _ => .Item

/-- `SpawnRequest`, from the source. -/
structure SpawnRequest where
  ty : EntityType
  position : Position
  velocity : Vec3
  meta : Metadata
  extra : Extra
deriving DecidableEq

/-- `Spawner`, from the source: the internal crossbeam `SegQueue` is
modelled as a FIFO list (push appends at the tail, pop removes the head). -/
structure Spawner where
  queue : List SpawnRequest
deriving DecidableEq

/-- `SegQueue::push`: appends a request at the tail of the queue. -/
def Spawner.push (s : Spawner) (r : SpawnRequest) : Spawner :=
  { queue := s.queue ++ [r] }

/-- `SegQueue::pop`: removes and returns the head request, or nothing once
the queue is empty. -/
def Spawner.pop (s : Spawner) : Option (SpawnRequest × Spawner) :=
  match s.queue with
  | [] => none
  | r :: rest => some (r, { queue := rest })

/-- `Spawner::spawn_item`, from the source: builds the item-flavoured
request (metadata derived from the item stack via `Item::default()` and
`set_item`) and pushes it. -/
def Spawner.spawn_item (s : Spawner) (position : Position) (velocity : Vec3)
    (item : ItemStack) : Spawner :=
  let meta := Metadata.Item (ItemMetadata.default.set_item (some item))
  let request : SpawnRequest :=
    { ty := EntityType.Item
      position := position
      velocity := velocity
      meta := meta
      extra := Extra.Item item }
  s.push request

/-- Entity identities, allocated by a monotone counter. -/
abbrev Entity := Nat

/-- `PositionComponent`, from the source's use: current and previous
position. -/
structure PositionComponent where
  current : Position
  previous : Position
deriving DecidableEq

/-- `VelocityComponent`, a newtype over `Vec3`. -/
structure VelocityComponent where
  v : Vec3
deriving DecidableEq

/-- `ItemMarker`: a zero-data marker component tagging item entities. -/
structure ItemMarker where
deriving DecidableEq

/-- `EntitySpawnEvent`, from the source's use: the created entity's
identity and its kind. -/
structure EntitySpawnEvent where
  entity : Entity
  ty : EntityType
deriving DecidableEq

/-- The part of the specs world that `SpawnerSystem::run` touches: the
entity allocator, the live-entity set, the five component storages
(association lists keyed by entity identity) and the spawn-event channel
(an append-only log). -/
structure World where
  nextEntity : Nat
  alive : List Entity
  positions : List (Entity × PositionComponent)
  velocities : List (Entity × VelocityComponent)
  metadatas : List (Entity × Metadata)
  types : List (Entity × EntityType)
  item_markers : List (Entity × ItemMarker)
  spawn_events : List EntitySpawnEvent
deriving DecidableEq

/-- Lookup of an entity's component in a storage. -/
def getComp {C : Type} (st : List (Entity × C)) (e : Entity) : Option C :=
  match st with
  | [] => none
  | (k, c) :: rest => if k = e then some c else getComp rest e

/-- Unconditional insertion into a storage: any old entry for the same
entity is replaced. -/
def insertList {C : Type} (st : List (Entity × C)) (e : Entity) (c : C) :
    List (Entity × C) :=
  match st with
  | [] => [(e, c)]
  | (k, d) :: rest =>
    if k = e then insertList rest e c else (k, d) :: insertList rest e c

/-- `WriteStorage::insert`: succeeds (replacing any old entry) when the
entity identity is alive, and fails otherwise — the failure the source
meets with `.unwrap()`. -/
def insertComp {C : Type} (alive : List Entity) (st : List (Entity × C))
    (e : Entity) (c : C) : Option (List (Entity × C)) :=
  if e ∈ alive then some (insertList st e c) else none

/-- `Entities::create`: allocates a fresh identity and marks it alive. -/
def createEntity (w : World) : Entity × World :=
  (w.nextEntity,
   { w with
      nextEntity := w.nextEntity + 1
      alive := w.alive ++ [w.nextEntity] })

/-- Which Rust panic fired during the drain: an `unwrap` on a failed
component insertion, or the `unimplemented!()` marker-attachment branch. -/
inductive PanicKind where
  | insertFailed : PanicKind
  | unimplementedKind : PanicKind
deriving DecidableEq

/-- Outcome of `SpawnerSystem::run`: normal completion with the drained
spawner and the final world, or a panic recording its kind, the requests
still queued, and the world at the moment of the abort. -/
inductive RunResult where
  | ok : Spawner → World → RunResult
  | panicked : PanicKind → Spawner → World → RunResult
deriving DecidableEq

/-- Drains a single popped request, following the source body line by
line: create the entity, insert position (current = previous =
request.position), velocity, metadata and entity-kind components, then
branch on the kind to insert the marker component (`unimplemented!()` on
any non-item kind), finally write the spawn event. -/
def drainOne (request : SpawnRequest) (w0 : World) : Except (PanicKind × World) World :=
  let (entity, w1) := createEntity w0
  match insertComp w1.alive w1.positions entity
      { current := request.position, previous := request.position } with
  | none => .error (.insertFailed, w1)
  | some ps =>
    let w2 := { w1 with positions := ps }
    match insertComp w2.alive w2.velocities entity { v := request.velocity } with
    | none => .error (.insertFailed, w2)
    | some vs =>
      let w3 := { w2 with velocities := vs }
      match insertComp w3.alive w3.metadatas entity request.meta with
      | none => .error (.insertFailed, w3)
      | some ms =>
        let w4 := { w3 with metadatas := ms }
        match insertComp w4.alive w4.types entity request.ty with
        | none => .error (.insertFailed, w4)
        | some ts =>
          let w5 := { w4 with types := ts }
          match request.ty with
          | EntityType.Item =>
            match insertComp w5.alive w5.item_markers entity ItemMarker.mk with
            | none => .error (.insertFailed, w5)
            | some mks =>
              let w6 := { w5 with item_markers := mks }
              .ok { w6 with
                      spawn_events :=
                        w6.spawn_events ++ [{ entity := entity, ty := request.ty }] }
          | EntityType.other _ => .error (.unimplementedKind, w5)

/-- The drain loop of `SpawnerSystem::run`: pop requests until the queue
is empty, draining each in turn; a panic aborts the loop. -/
def runLoop : List SpawnRequest → World → RunResult
  | [], w => .ok { queue := [] } w
  | r :: rest, w =>
    match drainOne r w with
    | .error (k, w') => .panicked k { queue := rest } w'
    | .ok w' => runLoop rest w'

/-- `SpawnerSystem`, from the source: a stateless system. -/
structure SpawnerSystem where
deriving DecidableEq

/-- `SpawnerSystem::run`, from the source: drain the spawner's queue into
the world. -/
def SpawnerSystem.run (spawner : Spawner) (w : World) : RunResult :=
  runLoop spawner.queue w

/-- The world carried by a run outcome (final world on completion, the
world at the abort on a panic). -/
def resultWorld : RunResult → World
  | .ok _ w => w
  | .panicked _ _ w => w

/-- The panic carried by a run outcome, if any. -/
def resultPanic : RunResult → Option PanicKind
  | .ok _ _ => none
  | .panicked k _ _ => some k

/-- The world after the four component insertions of a drained request but
before the marker-attachment branch: the state visible at the
`unimplemented!()` abort. -/
def spawnPartial (r : SpawnRequest) (w : World) : World :=
  { nextEntity := w.nextEntity + 1
    alive := w.alive ++ [w.nextEntity]
    positions := insertList w.positions w.nextEntity
      { current := r.position, previous := r.position }
    velocities := insertList w.velocities w.nextEntity { v := r.velocity }
    metadatas := insertList w.metadatas w.nextEntity r.meta
    types := insertList w.types w.nextEntity r.ty
    item_markers := w.item_markers
    spawn_events := w.spawn_events }

/-- The world after a fully successful drain of one request: the partial
world plus the marker component and the spawn event. -/
def spawnOne (r : SpawnRequest) (w : World) : World :=
  { spawnPartial r w with
      item_markers := insertList w.item_markers w.nextEntity ItemMarker.mk
      spawn_events := w.spawn_events ++ [{ entity := w.nextEntity, ty := r.ty }] }

/-- Draining a queue of well-formed requests succeeds step by step:
`foldAll` iterates the one-request success path. -/
def foldAll (q : List SpawnRequest) (w : World) : World :=
  q.foldl (fun w r => spawnOne r w) w

/-- The spawn events contributed by draining a queue whose first request
gets identity `n`, in drain order. -/
def eventsOf : List SpawnRequest → Nat → List EntitySpawnEvent
  | [], _ => []
  | r :: q, n => { entity := n, ty := r.ty } :: eventsOf q (n + 1)

/-- The request that `Spawner::spawn_item` builds from its arguments. -/
def itemRequest (t : Position × Vec3 × ItemStack) : SpawnRequest :=
  { ty := EntityType.Item
    position := t.1
    velocity := t.2.1
    meta := Metadata.Item (ItemMetadata.default.set_item (some t.2.2))
    extra := Extra.Item t.2.2 }

/-- A sequence of `spawn_item` calls, in order. -/
def spawnManyItems (inputs : List (Position × Vec3 × ItemStack)) (s : Spawner) :
    Spawner :=
  inputs.foldl (fun s t => s.spawn_item t.1 t.2.1 t.2.2) s

/-- An empty world: no entities, no components, no events. -/
def emptyWorld : World :=
  { nextEntity := 0
    alive := []
    positions := []
    velocities := []
    metadatas := []
    types := []
    item_markers := []
    spawn_events := [] }

/-- The tag-agreement invariant of a request: the `entity_kind` tag, the
metadata's internal tag and the extra's internal tag all agree. -/
def tagAgrees (r : SpawnRequest) : Prop :=
  r.meta.kind = r.ty ∧ r.extra.kind = r.ty

/-- The list of requests obtained by popping the spawner until empty. -/
def drainAll : Spawner → List SpawnRequest
  | { queue := [] } => []
  | { queue := r :: rest } => r :: drainAll { queue := rest }

theorem insertComp_of_mem {C : Type} {alive : List Entity} {e : Entity}
    (st : List (Entity × C)) (c : C) (h : e ∈ alive) :
    insertComp alive st e c = some (insertList st e c) := by
  simp [insertComp, h]

/-- Characterization of `drainOne`: the freshly created identity is always
alive, so every insertion succeeds; an item request drains fully, and any
other kind aborts at the marker-attachment branch with the four components
already inserted. -/
theorem drainOne_eq (r : SpawnRequest) (w : World) :
    drainOne r w =
      match r.ty with
      | EntityType.Item => Except.ok (spawnOne r w)
      | EntityType.other _ =>
          Except.error (PanicKind.unimplementedKind, spawnPartial r w) := by
  have hmem : w.nextEntity ∈ w.alive ++ [w.nextEntity] := by
    simp
  cases hty : r.ty with
  | Item =>
    simp only [drainOne, createEntity, insertComp_of_mem _ _ hmem, hty,
      spawnOne, spawnPartial]
  | other t =>
    simp only [drainOne, createEntity, insertComp_of_mem _ _ hmem, hty,
      spawnOne, spawnPartial]

theorem getComp_insertList_self {C : Type} (st : List (Entity × C)) (e : Entity)
    (c : C) : getComp (insertList st e c) e = some c := by
  induction st with
  | nil => simp [insertList, getComp]
  | cons p rest ih =>
    obtain ⟨k, d⟩ := p
    by_cases hk : k = e <;> simp [insertList, getComp, hk, ih]

theorem getComp_insertList_ne {C : Type} (st : List (Entity × C)) {k e : Entity}
    (c : C) (h : k ≠ e) : getComp (insertList st k c) e = getComp st e := by
  induction st with
  | nil => simp [insertList, getComp, h]
  | cons p rest ih =>
    obtain ⟨k', d⟩ := p
    by_cases hk : k' = k
    · subst hk
      simp [insertList, getComp, h, ih]
    · by_cases he : k' = e
      · subst he
        simp [insertList, getComp, hk]
      · simp [insertList, getComp, hk, he, ih]

theorem mem_insertList {C : Type} {st : List (Entity × C)} {e : Entity} {c : C}
    {x : Entity × C} (h : x ∈ insertList st e c) : x ∈ st ∨ x = (e, c) := by
  induction st with
  | nil =>
    simp [insertList] at h
    exact Or.inr h
  | cons p rest ih =>
    obtain ⟨k, d⟩ := p
    by_cases hk : k = e
    · simp only [insertList, hk, if_pos rfl] at h
      rcases ih h with h' | h'
      · exact Or.inl (List.mem_cons_of_mem _ h')
      · exact Or.inr h'
    · simp only [insertList, if_neg hk, List.mem_cons] at h
      rcases h with h' | h'
      · exact Or.inl (by simp [h'])
      · rcases ih h' with h'' | h''
        · exact Or.inl (List.mem_cons_of_mem _ h'')
        · exact Or.inr h''

theorem foldAll_nil (w : World) : foldAll [] w = w := rfl

theorem foldAll_cons (r : SpawnRequest) (q : List SpawnRequest) (w : World) :
    foldAll (r :: q) w = foldAll q (spawnOne r w) := rfl

/-- The drain loop on a queue of item requests completes normally and its
final world is the iterated success path. -/
theorem runLoop_items (q : List SpawnRequest) (w : World)
    (hq : ∀ r ∈ q, r.ty = EntityType.Item) :
    runLoop q w = RunResult.ok { queue := [] } (foldAll q w) := by
  induction q generalizing w with
  | nil => rfl
  | cons r rest ih =>
    have hr : r.ty = EntityType.Item := hq r (List.mem_cons_self r rest)
    have hrest : ∀ x ∈ rest, x.ty = EntityType.Item := fun x hx =>
      hq x (List.mem_cons_of_mem _ hx)
    simp only [runLoop, drainOne_eq, hr, foldAll_cons]
    exact ih (spawnOne r w) hrest

@[simp] theorem spawnOne_nextEntity (r : SpawnRequest) (w : World) :
    (spawnOne r w).nextEntity = w.nextEntity + 1 := rfl

@[simp] theorem spawnOne_alive (r : SpawnRequest) (w : World) :
    (spawnOne r w).alive = w.alive ++ [w.nextEntity] := rfl

@[simp] theorem spawnOne_positions (r : SpawnRequest) (w : World) :
    (spawnOne r w).positions =
      insertList w.positions w.nextEntity
        { current := r.position, previous := r.position } := rfl

@[simp] theorem spawnOne_velocities (r : SpawnRequest) (w : World) :
    (spawnOne r w).velocities =
      insertList w.velocities w.nextEntity { v := r.velocity } := rfl

@[simp] theorem spawnOne_metadatas (r : SpawnRequest) (w : World) :
    (spawnOne r w).metadatas = insertList w.metadatas w.nextEntity r.meta := rfl

@[simp] theorem spawnOne_types (r : SpawnRequest) (w : World) :
    (spawnOne r w).types = insertList w.types w.nextEntity r.ty := rfl

@[simp] theorem spawnOne_item_markers (r : SpawnRequest) (w : World) :
    (spawnOne r w).item_markers =
      insertList w.item_markers w.nextEntity ItemMarker.mk := rfl

@[simp] theorem spawnOne_spawn_events (r : SpawnRequest) (w : World) :
    (spawnOne r w).spawn_events =
      w.spawn_events ++ [{ entity := w.nextEntity, ty := r.ty }] := rfl

/-- Lookups of entities allocated before the drain are unchanged by the
iterated success path, for any storage that `spawnOne` updates by a single
keyed insertion. -/
theorem foldAll_stable {C : Type} (g : World → List (Entity × C))
    (f : SpawnRequest → C)
    (hg : ∀ r w, g (spawnOne r w) = insertList (g w) w.nextEntity (f r))
    (q : List SpawnRequest) :
    ∀ (w : World) (e : Entity), e < w.nextEntity →
      getComp (g (foldAll q w)) e = getComp (g w) e := by
  induction q with
  | nil => intro w e _; rfl
  | cons r q ih =>
    intro w e he
    have he1 : e < (spawnOne r w).nextEntity := Nat.lt_succ_of_lt he
    rw [foldAll_cons, ih (spawnOne r w) e he1, hg,
      getComp_insertList_ne _ _ (Nat.ne_of_gt he)]

/-- Lookup of the `i`-th freshly created entity after the iterated success
path, for any storage that `spawnOne` updates by a single keyed
insertion: it holds exactly the component derived from the `i`-th
request. -/
theorem foldAll_get {C : Type} (g : World → List (Entity × C))
    (f : SpawnRequest → C)
    (hg : ∀ r w, g (spawnOne r w) = insertList (g w) w.nextEntity (f r))
    (q : List SpawnRequest) :
    ∀ (w : World) (i : Nat) (h : i < q.length),
      getComp (g (foldAll q w)) (w.nextEntity + i) = some (f (q.get ⟨i, h⟩)) := by
  induction q with
  | nil => intro w i h; exact absurd h (Nat.not_lt_zero i)
  | cons r q ih =>
    intro w i h
    cases i with
    | zero =>
      rw [foldAll_cons, Nat.add_zero,
        foldAll_stable g f hg q (spawnOne r w) w.nextEntity (Nat.lt_succ_self _),
        hg, getComp_insertList_self]
      rfl
    | succ j =>
      have hj : j < q.length := Nat.lt_of_succ_lt_succ h
      have hstep : w.nextEntity + (j + 1) = (spawnOne r w).nextEntity + j := by
        rw [spawnOne_nextEntity]; omega
      rw [foldAll_cons, hstep, ih (spawnOne r w) j hj]
      rfl

theorem foldAll_nextEntity (q : List SpawnRequest) :
    ∀ w : World, (foldAll q w).nextEntity = w.nextEntity + q.length := by
  induction q with
  | nil => intro w; rfl
  | cons r q ih =>
    intro w
    rw [foldAll_cons, ih (spawnOne r w), spawnOne_nextEntity]
    simp [List.length_cons]
    omega

theorem foldAll_spawn_events (q : List SpawnRequest) :
    ∀ w : World,
      (foldAll q w).spawn_events = w.spawn_events ++ eventsOf q w.nextEntity := by
  induction q with
  | nil => intro w; simp [foldAll_nil, eventsOf]
  | cons r q ih =>
    intro w
    rw [foldAll_cons, ih (spawnOne r w)]
    simp [eventsOf, List.append_assoc]

theorem foldAll_alive (q : List SpawnRequest) :
    ∀ w : World,
      (foldAll q w).alive =
        w.alive ++ (List.range q.length).map (fun i => w.nextEntity + i) := by
  induction q with
  | nil => intro w; simp [foldAll_nil]
  | cons r q ih =>
    intro w
    rw [foldAll_cons, ih (spawnOne r w)]
    simp only [spawnOne_alive, spawnOne_nextEntity, List.append_assoc,
      List.singleton_append, List.length_cons, List.range_succ_eq_map,
      List.map_cons, List.map_map, Nat.add_zero]
    refine congrArg _ (congrArg _ ?_)
    refine List.map_congr_left (fun i _ => ?_)
    simp [Function.comp]
    omega

theorem eventsOf_items (q : List SpawnRequest)
    (hq : ∀ r ∈ q, r.ty = EntityType.Item) :
    ∀ n : Nat,
      eventsOf q n =
        (List.range q.length).map
          (fun i => { entity := n + i, ty := EntityType.Item }) := by
  induction q with
  | nil => intro n; simp [eventsOf]
  | cons r q ih =>
    intro n
    have hr : r.ty = EntityType.Item := hq r (List.mem_cons_self r q)
    have hrest : ∀ x ∈ q, x.ty = EntityType.Item := fun x hx =>
      hq x (List.mem_cons_of_mem _ hx)
    have hmap : (List.range q.length).map
          (fun i => ({ entity := n + 1 + i, ty := EntityType.Item } : EntitySpawnEvent))
        = (List.range q.length).map
          (fun i => ({ entity := n + Nat.succ i, ty := EntityType.Item } : EntitySpawnEvent)) :=
      List.map_congr_left (fun i _ => by
        simp only [EntitySpawnEvent.mk.injEq, eq_self_iff_true, and_true]
        show @Eq Nat _ _
        omega)
    rw [eventsOf, hr, ih hrest (n + 1), hmap, List.length_cons,
      List.range_succ_eq_map, List.map_cons, List.map_map]
    simp [Function.comp]

@[simp] theorem spawnPartial_nextEntity (r : SpawnRequest) (w : World) :
    (spawnPartial r w).nextEntity = w.nextEntity + 1 := rfl

@[simp] theorem spawnPartial_positions (r : SpawnRequest) (w : World) :
    (spawnPartial r w).positions =
      insertList w.positions w.nextEntity
        { current := r.position, previous := r.position } := rfl

@[simp] theorem spawnPartial_velocities (r : SpawnRequest) (w : World) :
    (spawnPartial r w).velocities =
      insertList w.velocities w.nextEntity { v := r.velocity } := rfl

@[simp] theorem spawnPartial_metadatas (r : SpawnRequest) (w : World) :
    (spawnPartial r w).metadatas = insertList w.metadatas w.nextEntity r.meta := rfl

@[simp] theorem spawnPartial_types (r : SpawnRequest) (w : World) :
    (spawnPartial r w).types = insertList w.types w.nextEntity r.ty := rfl

@[simp] theorem spawnPartial_item_markers (r : SpawnRequest) (w : World) :
    (spawnPartial r w).item_markers = w.item_markers := rfl

@[simp] theorem spawnPartial_spawn_events (r : SpawnRequest) (w : World) :
    (spawnPartial r w).spawn_events = w.spawn_events := rfl

theorem runLoop_cons_item {r : SpawnRequest} (q : List SpawnRequest) (w : World)
    (hty : r.ty = EntityType.Item) :
    runLoop (r :: q) w = runLoop q (spawnOne r w) := by
  simp only [runLoop, drainOne_eq, hty]

theorem runLoop_cons_other {r : SpawnRequest} {t : Nat} (q : List SpawnRequest)
    (w : World) (hty : r.ty = EntityType.other t) :
    runLoop (r :: q) w =
      RunResult.panicked PanicKind.unimplementedKind { queue := q }
        (spawnPartial r w) := by
  simp only [runLoop, drainOne_eq, hty]

/-- The drain loop, whether it completes or aborts, never changes the
component lookups of an entity allocated before it ran. -/
theorem runLoop_preserves (q : List SpawnRequest) :
    ∀ (w : World) (e : Entity), e < w.nextEntity →
      getComp (resultWorld (runLoop q w)).positions e = getComp w.positions e ∧
      getComp (resultWorld (runLoop q w)).velocities e = getComp w.velocities e ∧
      getComp (resultWorld (runLoop q w)).metadatas e = getComp w.metadatas e ∧
      getComp (resultWorld (runLoop q w)).types e = getComp w.types e ∧
      getComp (resultWorld (runLoop q w)).item_markers e = getComp w.item_markers e := by
  induction q with
  | nil => intro w e _; exact ⟨rfl, rfl, rfl, rfl, rfl⟩
  | cons r q ih =>
    intro w e he
    have hne : w.nextEntity ≠ e := Nat.ne_of_gt he
    cases hty : r.ty with
    | Item =>
      rw [runLoop_cons_item q w hty]
      have he1 : e < (spawnOne r w).nextEntity := Nat.lt_succ_of_lt he
      obtain ⟨h1, h2, h3, h4, h5⟩ := ih (spawnOne r w) e he1
      refine ⟨?_, ?_, ?_, ?_, ?_⟩ <;>
        simp [h1, h2, h3, h4, h5, getComp_insertList_ne _ _ hne]
    | other t =>
      rw [runLoop_cons_other q w hty]
      refine ⟨?_, ?_, ?_, ?_, ?_⟩ <;>
        simp [resultWorld, getComp_insertList_ne _ _ hne]

/-- The drain loop never panics on a failed component insertion: every
identity it inserts for was just created, hence alive. -/
theorem runLoop_no_insert_panic (q : List SpawnRequest) :
    ∀ w : World, resultPanic (runLoop q w) ≠ some PanicKind.insertFailed := by
  induction q with
  | nil => intro w h; exact Option.noConfusion h
  | cons r q ih =>
    intro w
    cases hty : r.ty with
    | Item =>
      rw [runLoop_cons_item q w hty]
      exact ih (spawnOne r w)
    | other t =>
      rw [runLoop_cons_other q w hty]
      simp [resultPanic]

/-- If the drain loop reaches the `i`-th queued request — that is, every
request before it is an item request — then, whether the loop completes or
aborts, the position component stored for the entity created from that
request has both fields equal to the request's position. -/
theorem runLoop_position_of_drained (q : List SpawnRequest) :
    ∀ (w : World) (i : Nat) (h : i < q.length),
      (∀ j (hj : j < i), (q.get ⟨j, Nat.lt_trans hj h⟩).ty = EntityType.Item) →
      getComp (resultWorld (runLoop q w)).positions (w.nextEntity + i) =
        some
          { current := (q.get ⟨i, h⟩).position
            previous := (q.get ⟨i, h⟩).position } := by
  induction q with
  | nil => intro w i h _; exact absurd h (Nat.not_lt_zero i)
  | cons r q ih =>
    intro w i h hprev
    cases i with
    | zero =>
      rw [Nat.add_zero]
      cases hty : r.ty with
      | Item =>
        rw [runLoop_cons_item q w hty,
          (runLoop_preserves q (spawnOne r w) w.nextEntity
            (Nat.lt_succ_self _)).1,
          spawnOne_positions, getComp_insertList_self]
        rfl
      | other t =>
        rw [runLoop_cons_other q w hty]
        show getComp (spawnPartial r w).positions w.nextEntity = _
        rw [spawnPartial_positions, getComp_insertList_self]
        rfl
    | succ j =>
      have hr : r.ty = EntityType.Item := hprev 0 (Nat.succ_pos j)
      have hj : j < q.length := Nat.lt_of_succ_lt_succ h
      have hstep : w.nextEntity + (j + 1) = (spawnOne r w).nextEntity + j := by
        rw [spawnOne_nextEntity]
        omega
      rw [runLoop_cons_item q w hr, hstep,
        ih (spawnOne r w) j hj
          (fun k hk => hprev (k + 1) (Nat.succ_lt_succ hk))]
      rfl

theorem spawn_item_queue (s : Spawner) (p : Position) (v : Vec3) (i : ItemStack) :
    (s.spawn_item p v i).queue = s.queue ++ [itemRequest (p, v, i)] := rfl

theorem spawnManyItems_queue (inputs : List (Position × Vec3 × ItemStack)) :
    ∀ s : Spawner,
      (spawnManyItems inputs s).queue = s.queue ++ inputs.map itemRequest := by
  induction inputs with
  | nil => intro s; simp [spawnManyItems]
  | cons t ts ih =>
    intro s
    show (spawnManyItems ts (s.spawn_item t.1 t.2.1 t.2.2)).queue = _
    rw [ih (s.spawn_item t.1 t.2.1 t.2.2), spawn_item_queue]
    simp

/-- `drainAll` is the repeated-pop sequence. -/
theorem drainAll_pop (s : Spawner) :
    drainAll s =
      match s.pop with
      | none => []
      | some (r, rest) => r :: drainAll rest := by
  obtain ⟨q⟩ := s
  cases q <;> simp [drainAll, Spawner.pop]

theorem drainAll_queue : ∀ q : List SpawnRequest, drainAll { queue := q } = q := by
  intro q
  induction q with
  | nil => simp [drainAll]
  | cons r rest ih => simp [drainAll, ih]

/-- C9: running `SpawnerSystem::run` when the spawner's queue is empty
creates no entities, inserts no components and writes no events: it
returns normally with the world completely unchanged. -/
theorem run_empty_queue_is_noop (s : Spawner) (w : World) (hs : s.queue = []) :
    SpawnerSystem.run s w = RunResult.ok { queue := [] } w := by
  show runLoop s.queue w = _
  rw [hs]
  rfl

theorem run_empty_queue_is_noop_witness :
    SpawnerSystem.run { queue := [] } emptyWorld =
      RunResult.ok { queue := [] } emptyWorld :=
  run_empty_queue_is_noop { queue := [] } emptyWorld rfl

/-- C4: after `Spawner::spawn_item(p, v, i)` on an empty queue, the single
poppable request has `entity_kind = Item`, position identical to `p`,
velocity identical to `v`, metadata carrying the item stack `i`, and the
rest of the queue is empty. -/
theorem spawn_item_pop_roundtrip (p : Position) (v : Vec3) (i : ItemStack) :
    (Spawner.spawn_item { queue := [] } p v i).pop =
      some
        ({ ty := EntityType.Item
           position := p
           velocity := v
           meta := Metadata.Item (ItemMetadata.default.set_item (some i))
           extra := Extra.Item i },
         { queue := [] }) := rfl

/-- C5: every request appended by `Spawner::spawn_item` satisfies the
tag-agreement invariant: any request in the queue afterwards either was
already there, or is the new one, whose kind tag is `Item` and whose
metadata and extra tags agree with it. -/
theorem spawn_item_tag_agreement (s : Spawner) (p : Position) (v : Vec3)
    (i : ItemStack) (r : SpawnRequest)
    (hr : r ∈ (s.spawn_item p v i).queue) :
    r ∈ s.queue ∨ (r.ty = EntityType.Item ∧ tagAgrees r) := by
  rw [spawn_item_queue] at hr
  rcases List.mem_append.mp hr with h | h
  · exact Or.inl h
  · rw [List.mem_singleton.mp h]
    exact Or.inr ⟨rfl, rfl, rfl⟩

theorem spawn_item_tag_agreement_witness :
    itemRequest (⟨0, 0, 0⟩, ⟨0, 0, 0⟩, ⟨Item.EnderPearl, 4⟩) ∈
        (Spawner.mk []).queue ∨
      ((itemRequest (⟨0, 0, 0⟩, ⟨0, 0, 0⟩, ⟨Item.EnderPearl, 4⟩)).ty =
          EntityType.Item ∧
        tagAgrees (itemRequest (⟨0, 0, 0⟩, ⟨0, 0, 0⟩, ⟨Item.EnderPearl, 4⟩))) :=
  spawn_item_tag_agreement (Spawner.mk []) ⟨0, 0, 0⟩ ⟨0, 0, 0⟩
    ⟨Item.EnderPearl, 4⟩ _ (by decide)

/-- C7: popping returns pending requests in FIFO order with respect to
appends and returns nothing once the queue is empty: draining after a push
yields the previously pending requests first and the pushed request last,
and popping the empty spawner yields nothing. -/
theorem spawner_pop_fifo (s : Spawner) (r : SpawnRequest) :
    drainAll (s.push r) = drainAll s ++ [r] ∧ (Spawner.mk []).pop = none := by
  constructor
  · obtain ⟨q⟩ := s
    show drainAll { queue := q ++ [r] } = _
    rw [drainAll_queue, drainAll_queue]
  · rfl

/-- C8: the drain never panics on a failed component insertion — every
insertion targets the identity that `Entities::create` just allocated,
which is alive, so the `unwrap` branch is unreachable: the run either
completes or panics only at the unimplemented marker-attachment branch. -/
theorem run_insert_never_fails (s : Spawner) (w : World) :
    resultPanic (SpawnerSystem.run s w) = none ∨
      resultPanic (SpawnerSystem.run s w) =
        some PanicKind.unimplementedKind := by
  have h := runLoop_no_insert_panic s.queue w
  cases hk : resultPanic (runLoop s.queue w) with
  | none => exact Or.inl hk
  | some k =>
    cases k with
    | insertFailed => exact absurd hk h
    | unimplementedKind => exact Or.inr hk

/-- C6: for every drained request — one the drain reaches, i.e. every
request before it in the queue is an item request — the position component
inserted on the entity created for it has its current and previous fields
both equal to the request's position, immediately after the run, whether
the run completes or aborts. -/
theorem run_position_set_from_request (s : Spawner) (w : World) (i : Nat)
    (h : i < s.queue.length)
    (hprev : ∀ j (hj : j < i),
      (s.queue.get ⟨j, Nat.lt_trans hj h⟩).ty = EntityType.Item) :
    getComp (resultWorld (SpawnerSystem.run s w)).positions
        (w.nextEntity + i) =
      some
        { current := (s.queue.get ⟨i, h⟩).position
          previous := (s.queue.get ⟨i, h⟩).position } :=
  runLoop_position_of_drained s.queue w i h hprev

theorem run_position_set_from_request_witness :
    getComp
        (resultWorld
          (SpawnerSystem.run
            (Spawner.spawn_item
              (Spawner.spawn_item { queue := [] } ⟨0, 10, 0⟩ ⟨1, 0, 0⟩
                ⟨Item.EnderPearl, 4⟩)
              ⟨7, 8, 9⟩ ⟨2, 0, 0⟩ ⟨Item.EnderPearl, 2⟩)
            emptyWorld)).positions
        (emptyWorld.nextEntity + 1) =
      some { current := ⟨7, 8, 9⟩, previous := ⟨7, 8, 9⟩ } :=
  by
  have hlt : 1 <
      (Spawner.spawn_item
        (Spawner.spawn_item { queue := [] } ⟨0, 10, 0⟩ ⟨1, 0, 0⟩
          ⟨Item.EnderPearl, 4⟩)
        ⟨7, 8, 9⟩ ⟨2, 0, 0⟩ ⟨Item.EnderPearl, 2⟩).queue.length := by decide
  refine run_position_set_from_request
    (Spawner.spawn_item
      (Spawner.spawn_item { queue := [] } ⟨0, 10, 0⟩ ⟨1, 0, 0⟩
        ⟨Item.EnderPearl, 4⟩)
      ⟨7, 8, 9⟩ ⟨2, 0, 0⟩ ⟨Item.EnderPearl, 2⟩)
    emptyWorld 1 hlt ?_
  intro j hj
  have hj0 : j = 0 := Nat.lt_one_iff.mp hj
  subst hj0
  show ((Spawner.spawn_item
        (Spawner.spawn_item { queue := [] } ⟨0, 10, 0⟩ ⟨1, 0, 0⟩
          ⟨Item.EnderPearl, 4⟩)
        ⟨7, 8, 9⟩ ⟨2, 0, 0⟩ ⟨Item.EnderPearl, 2⟩).queue.get
      ⟨0, by decide⟩).ty = EntityType.Item
  decide

/-- C10: the drain never modifies components of entities that existed
before the run: for any identity allocated before it (hence below the
allocator counter), the lookups of all five component storages are
unchanged, whether the run completes or panics. -/
theorem run_preserves_preexisting (s : Spawner) (w : World) (e : Entity)
    (he : e < w.nextEntity) :
    getComp (resultWorld (SpawnerSystem.run s w)).positions e =
        getComp w.positions e ∧
      getComp (resultWorld (SpawnerSystem.run s w)).velocities e =
        getComp w.velocities e ∧
      getComp (resultWorld (SpawnerSystem.run s w)).metadatas e =
        getComp w.metadatas e ∧
      getComp (resultWorld (SpawnerSystem.run s w)).types e =
        getComp w.types e ∧
      getComp (resultWorld (SpawnerSystem.run s w)).item_markers e =
        getComp w.item_markers e :=
  runLoop_preserves s.queue w e he

/-- C2 counterexample: draining a request of an unimplemented kind does
panic at the marker-attachment branch, but at the moment of the abort the
failing request's position component (and the other three already
inserted components) is visible in the store, so the entity is partially
initialized, contrary to the claim. -/
theorem run_unimplemented_partial_state_counterexample :
    resultPanic
        (SpawnerSystem.run
          { queue :=
              [{ ty := EntityType.other 0
                 position := ⟨1, 2, 3⟩
                 velocity := ⟨4, 5, 6⟩
                 meta := Metadata.other 0
                 extra := Extra.Item ⟨Item.EnderPearl, 1⟩ }] }
          emptyWorld) =
        some PanicKind.unimplementedKind ∧
      getComp
          (resultWorld
            (SpawnerSystem.run
              { queue :=
                  [{ ty := EntityType.other 0
                     position := ⟨1, 2, 3⟩
                     velocity := ⟨4, 5, 6⟩
                     meta := Metadata.other 0
                     extra := Extra.Item ⟨Item.EnderPearl, 1⟩ }] }
              emptyWorld)).positions
          0 =
        some { current := ⟨1, 2, 3⟩, previous := ⟨1, 2, 3⟩ } := by decide

/-- C2 (amended): when `SpawnerSystem::run` processes a request whose
entity kind has no implemented marker-attachment case, it panics before
completing the entity: at the abort the failing request's position,
velocity, metadata and entity-kind components have already been inserted
for the new identity, while the marker storage and the event channel are
untouched. -/
theorem run_unimplemented_aborts_with_partial_entity (r : SpawnRequest)
    (rest : List SpawnRequest) (w : World) (t : Nat)
    (hty : r.ty = EntityType.other t) :
    SpawnerSystem.run { queue := r :: rest } w =
        RunResult.panicked PanicKind.unimplementedKind { queue := rest }
          (spawnPartial r w) ∧
      getComp (spawnPartial r w).positions w.nextEntity =
        some { current := r.position, previous := r.position } ∧
      getComp (spawnPartial r w).velocities w.nextEntity =
        some { v := r.velocity } ∧
      getComp (spawnPartial r w).metadatas w.nextEntity = some r.meta ∧
      getComp (spawnPartial r w).types w.nextEntity = some r.ty ∧
      (spawnPartial r w).item_markers = w.item_markers ∧
      (spawnPartial r w).spawn_events = w.spawn_events := by
  refine ⟨runLoop_cons_other rest w hty, ?_, ?_, ?_, ?_, rfl, rfl⟩ <;>
    simp [getComp_insertList_self]

theorem run_unimplemented_aborts_with_partial_entity_witness :
    SpawnerSystem.run
        { queue :=
            [{ ty := EntityType.other 7
               position := ⟨1, 2, 3⟩
               velocity := ⟨4, 5, 6⟩
               meta := Metadata.other 7
               extra := Extra.Item ⟨Item.EnderPearl, 1⟩ }] }
        emptyWorld =
        RunResult.panicked PanicKind.unimplementedKind { queue := [] }
          (spawnPartial
            { ty := EntityType.other 7
              position := ⟨1, 2, 3⟩
              velocity := ⟨4, 5, 6⟩
              meta := Metadata.other 7
              extra := Extra.Item ⟨Item.EnderPearl, 1⟩ }
            emptyWorld) ∧
      getComp
          (spawnPartial
            { ty := EntityType.other 7
              position := ⟨1, 2, 3⟩
              velocity := ⟨4, 5, 6⟩
              meta := Metadata.other 7
              extra := Extra.Item ⟨Item.EnderPearl, 1⟩ }
            emptyWorld).positions
          emptyWorld.nextEntity =
        some { current := ⟨1, 2, 3⟩, previous := ⟨1, 2, 3⟩ } ∧
      getComp
          (spawnPartial
            { ty := EntityType.other 7
              position := ⟨1, 2, 3⟩
              velocity := ⟨4, 5, 6⟩
              meta := Metadata.other 7
              extra := Extra.Item ⟨Item.EnderPearl, 1⟩ }
            emptyWorld).velocities
          emptyWorld.nextEntity =
        some { v := ⟨4, 5, 6⟩ } ∧
      getComp
          (spawnPartial
            { ty := EntityType.other 7
              position := ⟨1, 2, 3⟩
              velocity := ⟨4, 5, 6⟩
              meta := Metadata.other 7
              extra := Extra.Item ⟨Item.EnderPearl, 1⟩ }
            emptyWorld).metadatas
          emptyWorld.nextEntity =
        some (Metadata.other 7) ∧
      getComp
          (spawnPartial
            { ty := EntityType.other 7
              position := ⟨1, 2, 3⟩
              velocity := ⟨4, 5, 6⟩
              meta := Metadata.other 7
              extra := Extra.Item ⟨Item.EnderPearl, 1⟩ }
            emptyWorld).types
          emptyWorld.nextEntity =
        some (EntityType.other 7) ∧
      (spawnPartial
          { ty := EntityType.other 7
            position := ⟨1, 2, 3⟩
            velocity := ⟨4, 5, 6⟩
            meta := Metadata.other 7
            extra := Extra.Item ⟨Item.EnderPearl, 1⟩ }
          emptyWorld).item_markers =
        emptyWorld.item_markers ∧
      (spawnPartial
          { ty := EntityType.other 7
            position := ⟨1, 2, 3⟩
            velocity := ⟨4, 5, 6⟩
            meta := Metadata.other 7
            extra := Extra.Item ⟨Item.EnderPearl, 1⟩ }
          emptyWorld).spawn_events =
        emptyWorld.spawn_events :=
  run_unimplemented_aborts_with_partial_entity _ [] emptyWorld 7 rfl

/-- If some queued request has a kind with no marker-attachment case, the
drain loop panics with the unimplemented-kind panic. -/
theorem runLoop_unsupported (q : List SpawnRequest) :
    ∀ (w : World) (r : SpawnRequest) (t : Nat), r ∈ q →
      r.ty = EntityType.other t →
      resultPanic (runLoop q w) = some PanicKind.unimplementedKind := by
  induction q with
  | nil => intro w r t hr _; exact absurd hr (List.not_mem_nil r)
  | cons a q ih =>
    intro w r t hr hty
    cases hA : a.ty with
    | Item =>
      rw [runLoop_cons_item q w hA]
      rcases List.mem_cons.mp hr with h | h
      · subst h
        rw [hA] at hty
        exact EntityType.noConfusion hty
      · exact ih (spawnOne a w) r t h hty
    | other u =>
      rw [runLoop_cons_other q w hA]
      rfl

/-- C3: whenever some queued request has an entity kind with no
implemented marker-attachment case, running the drain panics at that
branch (deterministically, with the unimplemented-kind panic), so the
request is never silently dropped and the drain never completes
successfully. -/
theorem run_unsupported_kind_panics (s : Spawner) (w : World)
    (r : SpawnRequest) (t : Nat) (hr : r ∈ s.queue)
    (hty : r.ty = EntityType.other t) :
    resultPanic (SpawnerSystem.run s w) =
      some PanicKind.unimplementedKind :=
  runLoop_unsupported s.queue w r t hr hty

theorem run_unsupported_kind_panics_witness :
    resultPanic
        (SpawnerSystem.run
          { queue :=
              [{ ty := EntityType.other 3
                 position := ⟨0, 0, 0⟩
                 velocity := ⟨0, 0, 0⟩
                 meta := Metadata.other 3
                 extra := Extra.Item ⟨Item.EnderPearl, 1⟩ }] }
          emptyWorld) =
      some PanicKind.unimplementedKind :=
  run_unsupported_kind_panics
    { queue :=
        [{ ty := EntityType.other 3
           position := ⟨0, 0, 0⟩
           velocity := ⟨0, 0, 0⟩
           meta := Metadata.other 3
           extra := Extra.Item ⟨Item.EnderPearl, 1⟩ }] }
    emptyWorld
    { ty := EntityType.other 3
      position := ⟨0, 0, 0⟩
      velocity := ⟨0, 0, 0⟩
      meta := Metadata.other 3
      extra := Extra.Item ⟨Item.EnderPearl, 1⟩ }
    3 (by decide) rfl

/-- C1: enqueuing K well-formed item requests through `spawn_item` and
running `SpawnerSystem::run` once completes normally, creates exactly K
new entities (the allocator advances by K and exactly the K fresh
identities become alive), appends exactly K spawn events in enqueue
order, each carrying the created entity's identity and the Item kind, and
gives the i-th created entity position, velocity, metadata, entity-kind
and item-marker components all set from the i-th request. -/
theorem run_spawns_all_items (inputs : List (Position × Vec3 × ItemStack))
    (w : World) :
    SpawnerSystem.run (spawnManyItems inputs { queue := [] }) w =
        RunResult.ok { queue := [] }
          (resultWorld
            (SpawnerSystem.run (spawnManyItems inputs { queue := [] }) w)) ∧
      (resultWorld
          (SpawnerSystem.run (spawnManyItems inputs { queue := [] })
            w)).nextEntity =
        w.nextEntity + inputs.length ∧
      (resultWorld
          (SpawnerSystem.run (spawnManyItems inputs { queue := [] })
            w)).alive =
        w.alive ++ (List.range inputs.length).map (fun i => w.nextEntity + i) ∧
      (resultWorld
          (SpawnerSystem.run (spawnManyItems inputs { queue := [] })
            w)).spawn_events =
        w.spawn_events ++
          (List.range inputs.length).map
            (fun i => { entity := w.nextEntity + i, ty := EntityType.Item }) ∧
      ∀ (i : Nat) (h : i < inputs.length),
        getComp
            (resultWorld
              (SpawnerSystem.run (spawnManyItems inputs { queue := [] })
                w)).positions
            (w.nextEntity + i) =
          some
            { current := (inputs.get ⟨i, h⟩).1
              previous := (inputs.get ⟨i, h⟩).1 } ∧
        getComp
            (resultWorld
              (SpawnerSystem.run (spawnManyItems inputs { queue := [] })
                w)).velocities
            (w.nextEntity + i) =
          some { v := (inputs.get ⟨i, h⟩).2.1 } ∧
        getComp
            (resultWorld
              (SpawnerSystem.run (spawnManyItems inputs { queue := [] })
                w)).metadatas
            (w.nextEntity + i) =
          some
            (Metadata.Item
              (ItemMetadata.default.set_item (some (inputs.get ⟨i, h⟩).2.2))) ∧
        getComp
            (resultWorld
              (SpawnerSystem.run (spawnManyItems inputs { queue := [] })
                w)).types
            (w.nextEntity + i) =
          some EntityType.Item ∧
        getComp
            (resultWorld
              (SpawnerSystem.run (spawnManyItems inputs { queue := [] })
                w)).item_markers
            (w.nextEntity + i) =
          some ItemMarker.mk := by
  have hqueue : (spawnManyItems inputs { queue := [] }).queue =
      inputs.map itemRequest := by
    rw [spawnManyItems_queue]
    simp
  have hall : ∀ r ∈ inputs.map itemRequest, r.ty = EntityType.Item := by
    intro r hr
    rcases List.mem_map.mp hr with ⟨t, _, ht⟩
    rw [← ht]
    rfl
  have hrun : SpawnerSystem.run (spawnManyItems inputs { queue := [] }) w =
      RunResult.ok { queue := [] } (foldAll (inputs.map itemRequest) w) := by
    show runLoop (spawnManyItems inputs { queue := [] }).queue w = _
    rw [hqueue]
    exact runLoop_items _ w hall
  have hres : resultWorld
      (SpawnerSystem.run (spawnManyItems inputs { queue := [] }) w) =
      foldAll (inputs.map itemRequest) w := by
    rw [hrun]
    rfl
  have hlen : (inputs.map itemRequest).length = inputs.length :=
    List.length_map inputs itemRequest
  refine ⟨by rw [hrun]; rfl, ?_, ?_, ?_, ?_⟩
  · rw [hres, foldAll_nextEntity, hlen]
  · rw [hres, foldAll_alive, hlen]
  · rw [hres, foldAll_spawn_events, eventsOf_items _ hall, hlen]
  · intro i h
    have hm : i < (inputs.map itemRequest).length := by
      rw [hlen]
      exact h
    have hget : (inputs.map itemRequest).get ⟨i, hm⟩ =
        itemRequest (inputs.get ⟨i, h⟩) := by
      rw [List.get_eq_getElem, List.get_eq_getElem, List.getElem_map]
    refine ⟨?_, ?_, ?_, ?_, ?_⟩
    · rw [hres,
        foldAll_get (fun w => w.positions)
          (fun r => { current := r.position, previous := r.position })
          (fun r w => rfl) (inputs.map itemRequest) w i hm,
        hget]
      rfl
    · rw [hres,
        foldAll_get (fun w => w.velocities) (fun r => { v := r.velocity })
          (fun r w => rfl) (inputs.map itemRequest) w i hm,
        hget]
      rfl
    · rw [hres,
        foldAll_get (fun w => w.metadatas) (fun r => r.meta)
          (fun r w => rfl) (inputs.map itemRequest) w i hm,
        hget]
      rfl
    · rw [hres,
        foldAll_get (fun w => w.types) (fun r => r.ty)
          (fun r w => rfl) (inputs.map itemRequest) w i hm,
        hget]
      rfl
    · rw [hres,
        foldAll_get (fun w => w.item_markers) (fun _ => ItemMarker.mk)
          (fun r w => rfl) (inputs.map itemRequest) w i hm]

theorem run_spawns_all_items_witness :
    SpawnerSystem.run
        (spawnManyItems [(⟨0, 10, 0⟩, ⟨1, 0, 0⟩, ⟨Item.EnderPearl, 4⟩)]
          { queue := [] })
        emptyWorld =
        RunResult.ok { queue := [] }
          (resultWorld
            (SpawnerSystem.run
              (spawnManyItems [(⟨0, 10, 0⟩, ⟨1, 0, 0⟩, ⟨Item.EnderPearl, 4⟩)]
                { queue := [] })
              emptyWorld)) ∧
      getComp
          (resultWorld
            (SpawnerSystem.run
              (spawnManyItems [(⟨0, 10, 0⟩, ⟨1, 0, 0⟩, ⟨Item.EnderPearl, 4⟩)]
                { queue := [] })
              emptyWorld)).positions
          0 =
        some { current := ⟨0, 10, 0⟩, previous := ⟨0, 10, 0⟩ } ∧
      getComp
          (resultWorld
            (SpawnerSystem.run
              (spawnManyItems [(⟨0, 10, 0⟩, ⟨1, 0, 0⟩, ⟨Item.EnderPearl, 4⟩)]
                { queue := [] })
              emptyWorld)).item_markers
          0 =
        some ItemMarker.mk ∧
      (resultWorld
          (SpawnerSystem.run
            (spawnManyItems [(⟨0, 10, 0⟩, ⟨1, 0, 0⟩, ⟨Item.EnderPearl, 4⟩)]
              { queue := [] })
            emptyWorld)).spawn_events =
        [{ entity := 0, ty := EntityType.Item }] := by
  obtain ⟨h1, h2, h3, h4, h5⟩ :=
    run_spawns_all_items [(⟨0, 10, 0⟩, ⟨1, 0, 0⟩, ⟨Item.EnderPearl, 4⟩)]
      emptyWorld
  obtain ⟨hp, hv, hm, ht, hk⟩ := h5 0 (by decide)
  exact ⟨h1, hp, hk, by rw [h4]; rfl⟩

theorem run_preserves_preexisting_witness :
    getComp
        (resultWorld
          (SpawnerSystem.run
            (Spawner.spawn_item { queue := [] } ⟨1, 1, 1⟩ ⟨2, 2, 2⟩
              ⟨Item.EnderPearl, 2⟩)
            { nextEntity := 1
              alive := [0]
              positions := [(0, { current := ⟨5, 5, 5⟩, previous := ⟨6, 6, 6⟩ })]
              velocities := []
              metadatas := []
              types := []
              item_markers := []
              spawn_events := [] })).positions
        0 =
      getComp
        [(0,
          ({ current := ⟨5, 5, 5⟩, previous := ⟨6, 6, 6⟩ } :
            PositionComponent))]
        0 :=
  (run_preserves_preexisting
    (Spawner.spawn_item { queue := [] } ⟨1, 1, 1⟩ ⟨2, 2, 2⟩
      ⟨Item.EnderPearl, 2⟩)
    { nextEntity := 1
      alive := [0]
      positions := [(0, { current := ⟨5, 5, 5⟩, previous := ⟨6, 6, 6⟩ })]
      velocities := []
      metadatas := []
      types := []
      item_markers := []
      spawn_events := [] }
    0 (by decide)).1
